import Mathlib

/-!
Shallow embedding of the gumball-tracker field run session engine:
run session state (src/domain/runSession.js), visit ledger
(src/domain/visitModel.js over the IndexedDB `visits` store),
active-session persistence (src/domain/activeSession.js), the
auto check-in controller (src/domain/autoCheckIn.js), the cardinal
suggestion engine (src/utils/geo.js) and run completion
(src/app/app.js `finishRun`, src/domain/runCompletion.js).

JS `Set` is modelled as a duplicate-free `List String` in insertion
order; JS `Map` / plain objects as association lists with unique keys in
insertion order.  Machine numbers that the code only adds, compares and
divides are modelled as `ℚ` (coordinates, speeds, accuracies,
distances); epoch-millisecond timestamps as `Int`.  Host `Date`
formatting/parsing is abstracted as explicit function parameters.
-/

namespace Gumball

/-- JS truthiness of an optional string argument: `null`/`undefined` and
the empty string are falsy, any other string is truthy. -/
def jsTruthy : Option String → Bool
  | none => false
  | some s => s ≠ ""

/-- JS `Set.add`: appends the element unless already present. -/
def setAdd (l : List String) (x : String) : List String :=
  if l.contains x then l else l ++ [x]

/-- JS `Set.delete`: removes the element (on a duplicate-free list,
removing every occurrence coincides with removing the one occurrence). -/
def setDelete (l : List String) (x : String) : List String :=
  l.filter (fun y => y ≠ x)

/-- JS `Map.set`: overwrites the value in place if the key is present,
otherwise appends the pair. -/
def mapSet (m : List (String × String)) (k v : String) : List (String × String) :=
  if m.any (fun p => p.1 = k) then
    m.map (fun p => if p.1 = k then (k, v) else p)
  else m ++ [(k, v)]

/-- JS `Map.delete`: removes the binding for the key. -/
def mapDelete (m : List (String × String)) (k : String) : List (String × String) :=
  m.filter (fun p => p.1 ≠ k)

/-- JS `Map.get` (as `Option`; the source applies `?? null`). -/
def mapGet (m : List (String × String)) (k : String) : Option String :=
  (m.find? (fun p => p.1 = k)).map (fun p => p.2)

/-- Keys of a JS map, in insertion order. -/
def mapKeys (m : List (String × String)) : List String :=
  m.map (fun p => p.1)

/-! ### Decimal stringification of numbers (JS template `${n}`) -/

/-- One decimal digit as a character. -/
def digitToChar : Nat → Char
  | 0 => '0' | 1 => '1' | 2 => '2' | 3 => '3' | 4 => '4'
  | 5 => '5' | 6 => '6' | 7 => '7' | 8 => '8' | _ => '9'

/-- JS decimal stringification of a natural number. -/
def natDecStr (n : Nat) : String :=
  if n = 0 then "0"
  else String.mk (((Nat.digits 10 n).reverse).map digitToChar)

/-- JS decimal stringification of an integral number. -/
def intDecStr (i : Int) : String :=
  if i < 0 then "-" ++ natDecStr i.natAbs else natDecStr i.natAbs

/-! ### Run session (src/domain/runSession.js) -/

/-- In-memory run session: `runId`, insertion-ordered visited set,
locationId → visitId mapping, `startedAt` epoch milliseconds. -/
structure RunSession where
  runId : String
  visitedLocationIds : List String
  visitIdsByLocation : List (String × String)
  startedAt : Int
  deriving Repr, DecidableEq

/-- `createRunSession(runId)`: fresh session at time `now` (`Date.now()`). -/
def createRunSession (runId : String) (now : Int) : RunSession :=
  { runId := runId
    visitedLocationIds := []
    visitIdsByLocation := []
    startedAt := now }

/-- `markVisited(session, locationId, visitId = null)`: add to the visited
set; store the visit id only when the argument is truthy. -/
def markVisited (s : RunSession) (locationId : String) (visitId : Option String) :
    RunSession :=
  { s with
    visitedLocationIds := setAdd s.visitedLocationIds locationId
    visitIdsByLocation :=
      if jsTruthy visitId then mapSet s.visitIdsByLocation locationId (visitId.getD "")
      else s.visitIdsByLocation }

/-- `markUnvisited(session, locationId)`. -/
def markUnvisited (s : RunSession) (locationId : String) : RunSession :=
  { s with
    visitedLocationIds := setDelete s.visitedLocationIds locationId
    visitIdsByLocation := mapDelete s.visitIdsByLocation locationId }

/-- `isVisited(session, locationId)`. -/
def isVisited (s : RunSession) (locationId : String) : Bool :=
  s.visitedLocationIds.contains locationId

/-- `getVisitId(session, locationId)` (`?? null` becomes `Option`). -/
def getVisitId (s : RunSession) (locationId : String) : Option String :=
  mapGet s.visitIdsByLocation locationId

/-- `makeVisitId(session, locationId)`:
`` `visit-${session.runId}-${locationId}-${session.startedAt}` ``. -/
def makeVisitId (s : RunSession) (locationId : String) : String :=
  "visit-" ++ s.runId ++ "-" ++ locationId ++ "-" ++ intDecStr s.startedAt

/-! ### Visit ledger (src/domain/visitModel.js over the `visits` store) -/

/-- A visit record (`createVisit`). -/
structure Visit where
  id : String
  locationId : String
  runId : Option String
  visitedAt : Int
  visitMethod : String
  deriving Repr, DecidableEq

/-- The `visits` object store, keyed by `id`. -/
abbrev Ledger := List Visit

/-- `saveVisit` = IndexedDB `put`: replace the record with the same key,
else append. -/
def saveVisit (L : Ledger) (v : Visit) : Ledger :=
  if L.any (fun w => w.id = v.id) then
    L.map (fun w => if w.id = v.id then v else w)
  else L ++ [v]

/-- `deleteVisit` = IndexedDB `delete` by key; no-op if absent. -/
def deleteVisit (L : Ledger) (visitId : String) : Ledger :=
  L.filter (fun w => w.id ≠ visitId)

/-! ### App-level mark flows (src/app/app.js `onMarkVisited` / `onMarkUnvisited`) -/

/-- `onMarkVisited`: derive the deterministic visit id, `saveVisit` a manual
visit under it, then `markVisited(session, id, visitId)`. -/
def appMarkVisited (s : RunSession) (L : Ledger) (locationId : String) (now : Int) :
    RunSession × Ledger :=
  let visitId := makeVisitId s locationId
  let visit : Visit :=
    { id := visitId
      locationId := locationId
      runId := some s.runId
      visitedAt := now
      visitMethod := "manual" }
  (markVisited s locationId (some visitId), saveVisit L visit)

/-- `onMarkUnvisited`: read the stored visit id, `markUnvisited`, then
`if (visitId) deleteVisit(visitId)`. -/
def appMarkUnvisited (s : RunSession) (L : Ledger) (locationId : String) :
    RunSession × Ledger :=
  let visitId := getVisitId s locationId
  let s' := markUnvisited s locationId
  let L' := if jsTruthy visitId then deleteVisit L (visitId.getD "") else L
  (s', L')

/-! ### Active-session persistence (src/domain/activeSession.js,
`sessionFromStorage` in src/domain/runSession.js) -/

/-- `startedAt` as found in a persisted record: an ISO string or a number. -/
inductive StoredStartedAt where
  | str (s : String)
  | num (n : Int)
  deriving Repr, DecidableEq

/-- The persisted active-session record (single slot, key `"current"`). -/
structure ActiveSessionRecord where
  id : String
  runId : String
  visitedLocationIds : List String
  visitIdsByLocation : Option (List (String × String))
  startedAt : StoredStartedAt
  lastUpdatedAt : String
  deriving Repr, DecidableEq

/-- `saveActiveSession(session)`: serialize the set to an array, the map to
a plain object, the numeric `startedAt` to an ISO string via the host
`Date` (abstracted as `dateToISO`). -/
def saveActiveSession (dateToISO : Int → String) (s : RunSession) (now : Int) :
    ActiveSessionRecord :=
  { id := "current"
    runId := s.runId
    visitedLocationIds := s.visitedLocationIds
    visitIdsByLocation := some s.visitIdsByLocation
    startedAt := StoredStartedAt.str (dateToISO s.startedAt)
    lastUpdatedAt := dateToISO now }

/-- `new Set(array)`: deduplicate preserving first occurrences. -/
def setFromArray (l : List String) : List String :=
  l.foldl setAdd []

/-- `Object.entries(...).forEach(([k,v]) => map.set(k,v))`. -/
def mapFromEntries (entries : List (String × String)) : List (String × String) :=
  entries.foldl (fun acc p => mapSet acc p.1 p.2) []

/-- `sessionFromStorage(data)`: rehydrate a persisted record into an
in-memory session; `null` when `runId` is falsy; parse a string
`startedAt` with the host `Date` (abstracted as `dateParse`); fall back
to re-derived visit ids when the record predates visit-id tracking. -/
def sessionFromStorage (dateParse : String → Int) (now : Int)
    (data : ActiveSessionRecord) : Option RunSession :=
  if data.runId = "" then none
  else
    let startedAt : Int :=
      match data.startedAt with
      | StoredStartedAt.str s => dateParse s
      | StoredStartedAt.num n => if n = 0 then now else n
    let visited := setFromArray data.visitedLocationIds
    let vmap :=
      match data.visitIdsByLocation with
      | some entries => mapFromEntries entries
      | none =>
          visited.foldl
            (fun acc locId =>
              mapSet acc locId
                (makeVisitId
                  { runId := data.runId, visitedLocationIds := [],
                    visitIdsByLocation := [], startedAt := startedAt } locId))
            []
    some
      { runId := data.runId
        visitedLocationIds := visited
        visitIdsByLocation := vmap
        startedAt := startedAt }

/-! ### Locations and the auto check-in controller (src/domain/autoCheckIn.js) -/

/-- A stop as seen by the geo code: id, display name, coordinates. -/
structure GeoLoc where
  id : String
  name : String
  latitude : ℚ
  longitude : ℚ
  deriving Repr, DecidableEq

/-- Auto check-in settings (already clamped by the settings module). -/
structure ACSettings where
  enabled : Bool
  proximityMeters : ℚ
  dwellSeconds : ℚ
  deriving Repr, DecidableEq

/-- A position fix; `coords` subfields may be absent (`== null` checks). -/
structure Fix where
  latitude : Option ℚ
  longitude : Option ℚ
  accuracy : Option ℚ
  speed : Option ℚ
  deriving Repr, DecidableEq

/-- The pending dwell timer: when it was armed and its delay
(`dwellSeconds * 1000` milliseconds). -/
structure DwellTimer where
  setAtMs : Int
  delayMs : ℚ
  deriving Repr, DecidableEq

/-- Controller state: `dwellingLocationId` and `dwellTimerId`
(modelled as the pending timer itself). -/
structure ACState where
  dwellingLocationId : Option String
  dwellTimer : Option DwellTimer
  deriving Repr, DecidableEq

/-- `cancelAll()`: clear the timer and the dwelling id. -/
def acCancelAll : ACState := { dwellingLocationId := none, dwellTimer := none }

/-- The closest-within-proximity loop of `update`: running candidate and
its distance, threshold `proximityKm`. -/
def findClosest (distF : ℚ → ℚ → ℚ → ℚ → ℚ) (lat lng proximityKm : ℚ)
    (unvisited : List GeoLoc) : Option (GeoLoc × ℚ) :=
  unvisited.foldl
    (fun acc loc =>
      let d := distF lat lng loc.latitude loc.longitude
      match acc with
      | none => if d ≤ proximityKm then some (loc, d) else none
      | some (_, cd) => if d ≤ proximityKm ∧ d < cd then some (loc, d) else acc)
    none

/-- `update(position)` of the auto check-in controller, as a state
transition.  `distF` abstracts `haversineKm`; `now` is the arming time of
a fresh timer.  Gates in source order: disabled, no unvisited stop,
missing coordinates, accuracy above `max(proximityMeters, 100)`, speed
above 5 km/h (`speed * 3.6 > 5`), no stop within range, already dwelling
on the closest stop. -/
def acUpdate (distF : ℚ → ℚ → ℚ → ℚ → ℚ) (settings : ACSettings)
    (locations : List GeoLoc) (visitedIds : List String) (fix : Fix) (now : Int)
    (st : ACState) : ACState :=
  if !settings.enabled then acCancelAll
  else
    let unvisited := locations.filter (fun loc => !(visitedIds.contains loc.id))
    if unvisited.isEmpty then acCancelAll
    else
      match fix.latitude, fix.longitude with
      | some lat, some lng =>
          let pm := if settings.proximityMeters = 0 then 50 else settings.proximityMeters
          let proximityKm := pm / 1000
          let accuracyThreshold := max pm 100
          if (match fix.accuracy with
              | some a => decide (a > accuracyThreshold)
              | none => false) then st
          else if (match fix.speed with
              | some v => decide (v * (36 / 10 : ℚ) > 5)
              | none => false) then acCancelAll
          else
            match findClosest distF lat lng proximityKm unvisited with
            | none => acCancelAll
            | some (closest, _) =>
                if st.dwellingLocationId = some closest.id then st
                else
                  { dwellingLocationId := some closest.id
                    dwellTimer := some
                      { setAtMs := now
                        delayMs :=
                          (if settings.dwellSeconds = 0 then 30
                           else settings.dwellSeconds) * 1000 } }
      | _, _ => st

/-! ### Cardinal suggestion engine (src/utils/geo.js `getNearestByCardinal`) -/

/-- The four cardinal directions. -/
inductive Card where
  | N | E | S | W
  deriving Repr, DecidableEq

/-- The `CARDINALS` range table (degrees). -/
def CARDINALS : Card → ℚ × ℚ
  | Card.N => (337.5, 22.5)
  | Card.E => (22.5, 112.5)
  | Card.S => (112.5, 202.5)
  | Card.W => (202.5, 337.5)

/-- `bearingInCardinal(b, card)`: half-open range test, wrapping for the
range whose `max` is below its `min` (north). -/
def bearingInCardinal (b : ℚ) (c : Card) : Bool :=
  let r := CARDINALS c
  if r.2 > r.1 then decide (b ≥ r.1) && decide (b < r.2)
  else decide (b ≥ r.1) || decide (b < r.2)

/-- The `result` object of the loop: per direction, the best candidate so
far together with its distance. -/
structure CardResult where
  n : Option (GeoLoc × ℚ)
  e : Option (GeoLoc × ℚ)
  s : Option (GeoLoc × ℚ)
  w : Option (GeoLoc × ℚ)
  deriving Repr, DecidableEq

/-- `result[card]`. -/
def getCard (r : CardResult) : Card → Option (GeoLoc × ℚ)
  | Card.N => r.n
  | Card.E => r.e
  | Card.S => r.s
  | Card.W => r.w

/-- `result[card] = x`. -/
def setCard (r : CardResult) (c : Card) (x : Option (GeoLoc × ℚ)) : CardResult :=
  match c with
  | Card.N => { r with n := x }
  | Card.E => { r with e := x }
  | Card.S => { r with s := x }
  | Card.W => { r with w := x }

/-- Body of the inner `for (const card of ["N","E","S","W"])` loop:
`if (!current || dist < current.dist) result[card] = { ...loc, dist }`. -/
def updCard (b d : ℚ) (loc : GeoLoc) (r : CardResult) (c : Card) : CardResult :=
  if bearingInCardinal b c then
    match getCard r c with
    | none => setCard r c (some (loc, d))
    | some (_, cd) => if d < cd then setCard r c (some (loc, d)) else r
  else r

/-- Body of the outer candidate loop: compute bearing and distance once,
then try all four directions in order. -/
def processLoc (bearingF distF : ℚ → ℚ → ℚ → ℚ → ℚ) (clat clon : ℚ)
    (r : CardResult) (loc : GeoLoc) : CardResult :=
  let b := bearingF clat clon loc.latitude loc.longitude
  let d := distF clat clon loc.latitude loc.longitude
  updCard b d loc (updCard b d loc (updCard b d loc (updCard b d loc r Card.N) Card.E) Card.S) Card.W

/-- `getNearestByCardinal(centerLat, centerLon, locations, visitedIds)`:
filter to unvisited, run the loop, project each winner back to
`{id, latitude, longitude, name}` (the whole `GeoLoc` here).  `bearingF`
and `distF` abstract the transcendental `bearing` and `haversineKm`. -/
def getNearestByCardinal (bearingF distF : ℚ → ℚ → ℚ → ℚ → ℚ) (clat clon : ℚ)
    (locations : List GeoLoc) (visitedIds : List String) : Card → Option GeoLoc :=
  let candidates := locations.filter (fun loc => !(visitedIds.contains loc.id))
  let res := candidates.foldl (processLoc bearingF distF clat clon)
    { n := none, e := none, s := none, w := none }
  fun c => (getCard res c).map Prod.fst

/-! ### Run completion (src/app/app.js `finishRun`,
src/domain/runCompletion.js `addRunCompletion`) -/

/-- A run, as referenced by the completion flow. -/
structure Run where
  id : String
  name : String
  deriving Repr, DecidableEq

/-- A persisted `RunCompletion` record. -/
structure RunCompletion where
  id : String
  runId : String
  runName : String
  visitedCount : Nat
  totalCount : Nat
  completedAt : String
  durationMinutes : Option Int
  deriving Repr, DecidableEq

/-- IndexedDB `put` on the `runCompletions` store. -/
def putCompletion (cs : List RunCompletion) (r : RunCompletion) : List RunCompletion :=
  if cs.any (fun w => w.id = r.id) then
    cs.map (fun w => if w.id = r.id then r else w)
  else cs ++ [r]

/-- `Math.round` on an exact rational: round half toward positive infinity. -/
def jsRound (q : ℚ) : Int := ⌊q + 1 / 2⌋

/-- The slice of app state `finishRun` touches. -/
structure AppState where
  runSession : Option RunSession
  selectedRunId : Option String
  ledger : Ledger
  completions : List RunCompletion
  activeSlot : Option ActiveSessionRecord
  deriving Repr, DecidableEq

/-- The visit `finishRun`'s ledger loop writes for one visited location:
under the stored visit id (`getVisitId(session, locationId)`) or the
re-derived `` `visit-${runId}-${locationId}-${startedAt}` `` fallback,
with manual method and the current timestamp. -/
def finishVisit (session : RunSession) (runId locationId : String) (now : Int) : Visit :=
  { id := (getVisitId session locationId).getD
      ("visit-" ++ runId ++ "-" ++ locationId ++ "-" ++ intDecStr session.startedAt)
    locationId := locationId
    runId := some runId
    visitedAt := now
    visitMethod := "manual" }

/-- `finishRun()`: guard on a live session and selected run; write a
manual visit for every visited id (stored visit id, else the re-derived
fallback); add one completion record with `visitedCount`, `totalCount`
and `durationMinutes = Math.round((Date.now() - startedAt) / 60000)`;
clear the selection, the session and the active-session slot.  `genId`
abstracts `generateCompletionId()`, `dateToISO` the host `Date`. -/
def finishRun (dateToISO : Int → String) (genId : String) (st : AppState)
    (locations : List GeoLoc) (runs : List Run) (now : Int) : AppState :=
  match st.runSession, st.selectedRunId with
  | some session, some runId =>
      if runId = "" then st
      else
        let visitedIds := session.visitedLocationIds
        let totalCount := locations.length
        let visitedCount := visitedIds.length
        let runName := ((runs.find? (fun r => r.id = runId)).map Run.name).getD runId
        let completedAt := dateToISO now
        let durationMinutes : Option Int :=
          some (jsRound ((now - session.startedAt : ℚ) / 60000))
        let ledger' := visitedIds.foldl
          (fun L locationId => saveVisit L (finishVisit session runId locationId now))
          st.ledger
        let completions' := putCompletion st.completions
          { id := genId
            runId := runId
            runName := runName
            visitedCount := visitedCount
            totalCount := totalCount
            completedAt := completedAt
            durationMinutes := durationMinutes }
        { runSession := none
          selectedRunId := none
          ledger := ledger'
          completions := completions'
          activeSlot := none }
  | _, _ => st

/-- Scenario: mark the same location visited twice through the app flow
(each mark saves its visit under the deterministic id, then updates the
session). -/
def markTwice (s : RunSession) (L : Ledger) (locationId : String) (t1 t2 : Int) :
    RunSession × Ledger :=
  let r1 := appMarkVisited s L locationId t1
  appMarkVisited r1.1 r1.2 locationId t2

/-- Scenario: mark a location visited, then mark it unvisited, through the
app flows (ledger insert under the deterministic id, then ledger delete of
the stored id). -/
def markThenUnmark (s : RunSession) (L : Ledger) (locationId : String) (t : Int) :
    RunSession × Ledger :=
  let r1 := appMarkVisited s L locationId t
  appMarkUnvisited r1.1 r1.2 locationId

/-- The session mutations reachable from the UI: `markVisited` (with an
optional visit id) and `markUnvisited`. -/
inductive SessionOp where
  | mark (locationId : String) (visitId : Option String)
  | unmark (locationId : String)
  deriving Repr, DecidableEq

/-- Apply one session operation. -/
def applyOp (s : RunSession) : SessionOp → RunSession
  | SessionOp.mark l v => markVisited s l v
  | SessionOp.unmark l => markUnvisited s l

/-- Run a list of session operations in order. -/
def runOps (s : RunSession) (ops : List SessionOp) : RunSession :=
  ops.foldl applyOp s

/-- Loop invariant of `getNearestByCardinal`: after processing the
candidates `cs`, each direction's slot is empty exactly when no processed
candidate bears in that direction, and otherwise holds a minimum-distance
processed candidate of that direction together with its distance. -/
def goodResult (bearingF distF : ℚ → ℚ → ℚ → ℚ → ℚ) (clat clon : ℚ)
    (cs : List GeoLoc) (r : CardResult) : Prop :=
  ∀ c : Card,
    (getCard r c = none
      ∧ cs.filter (fun loc => bearingInCardinal
          (bearingF clat clon loc.latitude loc.longitude) c) = [])
    ∨ (∃ g, getCard r c = some (g, distF clat clon g.latitude g.longitude)
        ∧ g ∈ cs.filter (fun loc => bearingInCardinal
            (bearingF clat clon loc.latitude loc.longitude) c)
        ∧ ∀ l ∈ cs.filter (fun loc => bearingInCardinal
            (bearingF clat clon loc.latitude loc.longitude) c),
            distF clat clon g.latitude g.longitude
              ≤ distF clat clon l.latitude l.longitude)

/-! ## Lemmas: decimal stringification is injective -/

/-- Inverse of `digitToChar` on decimal digits. -/
def charToDigit (c : Char) : Nat := c.toNat - 48

theorem charToDigit_digitToChar : ∀ d < 10, charToDigit (digitToChar d) = d := by
  decide

theorem digitToChar_ne_dash (d : Nat) : digitToChar d ≠ '-' := by
  unfold digitToChar
  split <;> decide

theorem map_charToDigit_digitToChar (l : List Nat) (hl : ∀ d ∈ l, d < 10) :
    l.map (charToDigit ∘ digitToChar) = l := by
  induction l with
  | nil => rfl
  | cons d t ih =>
      have hd : d < 10 := hl d (List.mem_cons_self _ _)
      have ht : ∀ x ∈ t, x < 10 := fun x hx => hl x (List.mem_cons_of_mem _ hx)
      simp only [List.map_cons, Function.comp_apply, charToDigit_digitToChar d hd, ih ht]

theorem digits_all_lt (n : Nat) : ∀ d ∈ (Nat.digits 10 n).reverse, d < 10 :=
  fun d hd => Nat.digits_lt_base (by norm_num) (List.mem_reverse.mp hd)

theorem rev_map_digits_inj {m n : Nat}
    (h : (Nat.digits 10 m).reverse.map digitToChar = (Nat.digits 10 n).reverse.map digitToChar) :
    m = n := by
  have h2 := congrArg (List.map charToDigit) h
  rw [List.map_map, List.map_map, map_charToDigit_digitToChar _ (digits_all_lt m),
    map_charToDigit_digitToChar _ (digits_all_lt n), List.reverse_inj] at h2
  calc m = Nat.ofDigits 10 (Nat.digits 10 m) := (Nat.ofDigits_digits 10 m).symm
    _ = Nat.ofDigits 10 (Nat.digits 10 n) := by rw [h2]
    _ = n := Nat.ofDigits_digits 10 n

theorem natDecStr_data_of_ne_zero {n : Nat} (hn : n ≠ 0) :
    (natDecStr n).data = (Nat.digits 10 n).reverse.map digitToChar := by
  unfold natDecStr
  rw [if_neg hn]

theorem rev_map_digits_ne_zero_str {n : Nat} (hn : n ≠ 0) :
    (Nat.digits 10 n).reverse.map digitToChar ≠ ['0'] := by
  intro h
  have h2 := congrArg (List.map charToDigit) h
  rw [List.map_map, map_charToDigit_digitToChar _ (digits_all_lt n)] at h2
  have hd : Nat.digits 10 n = [0] := by
    have := congrArg List.reverse h2
    simpa [charToDigit] using this
  have := Nat.ofDigits_digits 10 n
  rw [hd] at this
  simp [Nat.ofDigits] at this
  exact hn this.symm

theorem natDecStr_injective : Function.Injective natDecStr := by
  intro m n h
  by_cases hm : m = 0 <;> by_cases hn : n = 0
  · omega
  · exfalso
    have hd := congrArg String.data h
    rw [natDecStr_data_of_ne_zero hn] at hd
    rw [hm] at hd
    exact rev_map_digits_ne_zero_str hn (by simpa [natDecStr] using hd.symm)
  · exfalso
    have hd := congrArg String.data h
    rw [natDecStr_data_of_ne_zero hm] at hd
    rw [hn] at hd
    exact rev_map_digits_ne_zero_str hm (by simpa [natDecStr] using hd)
  · have hd := congrArg String.data h
    rw [natDecStr_data_of_ne_zero hm, natDecStr_data_of_ne_zero hn] at hd
    exact rev_map_digits_inj hd

theorem natDecStr_no_dash (n : Nat) : '-' ∉ (natDecStr n).data := by
  by_cases hn : n = 0
  · rw [hn]
    decide
  · rw [natDecStr_data_of_ne_zero hn]
    intro hmem
    rcases List.mem_map.mp hmem with ⟨d, _, hd⟩
    exact digitToChar_ne_dash d hd

theorem dash_append_ne_natDecStr (m n : Nat) : "-" ++ natDecStr m ≠ natDecStr n := by
  intro h
  have hd := congrArg String.data h
  rw [String.data_append] at hd
  have hmem : '-' ∈ (natDecStr n).data := by
    rw [← hd]
    exact List.mem_append_left _ (by decide)
  exact natDecStr_no_dash n hmem

theorem intDecStr_injective : Function.Injective intDecStr := by
  intro i j h
  unfold intDecStr at h
  by_cases hi : i < 0 <;> by_cases hj : j < 0 <;> simp only [hi, hj, if_pos, if_neg,
    if_true, if_false, reduceIte] at h
  · have hd := congrArg String.data h
    rw [String.data_append, String.data_append] at hd
    have : (natDecStr i.natAbs).data = (natDecStr j.natAbs).data :=
      List.append_cancel_left hd
    have := natDecStr_injective (String.ext this)
    omega
  · exact absurd h (dash_append_ne_natDecStr _ _)
  · exact absurd h.symm (dash_append_ne_natDecStr _ _)
  · have := natDecStr_injective h
    omega

/-! ## Lemmas: JS set / map model -/

theorem string_append_left_cancel {a b c : String} (h : a ++ b = a ++ c) : b = c := by
  have hd := congrArg String.data h
  rw [String.data_append, String.data_append] at hd
  exact String.ext (List.append_cancel_left hd)

theorem setAdd_contains (l : List String) (x : String) :
    (setAdd l x).contains x = true := by
  unfold setAdd
  by_cases h : l.contains x
  · rw [if_pos h]
    exact h
  · rw [if_neg h]
    simp

theorem setAdd_of_contains {l : List String} {x : String} (h : l.contains x = true) :
    setAdd l x = l := by
  unfold setAdd
  rw [if_pos h]

theorem setAdd_count {l : List String} (x : String) (hnd : l.Nodup) :
    (setAdd l x).count x = 1 := by
  unfold setAdd
  by_cases h : l.contains x
  · rw [if_pos h]
    exact List.count_eq_one_of_mem hnd (List.mem_of_elem_eq_true h)
  · rw [if_neg h]
    rw [List.count_append]
    have : l.count x = 0 := List.count_eq_zero_of_not_mem (by simpa using h)
    simp [this]

theorem setAdd_nodup {l : List String} (x : String) (hnd : l.Nodup) :
    (setAdd l x).Nodup := by
  unfold setAdd
  by_cases h : l.contains x
  · rw [if_pos h]
    exact hnd
  · rw [if_neg h]
    have hx : x ∉ l := by simpa using h
    simpa [List.nodup_append, hx] using hnd

theorem mapSet_cons_ne {p : String × String} {t : List (String × String)} {k v : String}
    (hp : p.1 ≠ k) : mapSet (p :: t) k v = p :: mapSet t k v := by
  unfold mapSet
  simp only [List.any_cons, hp, decide_False, Bool.false_or]
  by_cases h : t.any (fun q => q.1 = k)
  · simp [h, hp]
  · simp [h]

theorem mapGet_mapSet_self (m : List (String × String)) (k v : String) :
    mapGet (mapSet m k v) k = some v := by
  induction m with
  | nil => simp [mapSet, mapGet, List.find?]
  | cons p t ih =>
      by_cases hp : p.1 = k
      · unfold mapSet
        simp only [List.any_cons, hp, decide_True, Bool.true_or, if_true]
        simp [mapGet, List.find?, hp]
      · rw [mapSet_cons_ne hp]
        simpa [mapGet, List.find?, hp] using ih

theorem mapGet_mapDelete_self (m : List (String × String)) (k : String) :
    mapGet (mapDelete m k) k = none := by
  have hfind : (mapDelete m k).find? (fun p => p.1 = k) = none := by
    rw [List.find?_eq_none]
    intro p hp
    have := (List.mem_filter.mp hp).2
    simpa using this
  simp [mapGet, hfind]

theorem setDelete_not_contains (l : List String) (x : String) :
    (setDelete l x).contains x = false := by
  have : x ∉ setDelete l x := by
    intro hx
    have := (List.mem_filter.mp hx).2
    simp at this
  simpa using this

/-! ## C9: deterministic visit-id derivation -/

/-- C9: `makeVisitId` yields the same id whenever `(runId, locationId,
startedAt)` are identical, and a different id whenever `runId` and
`locationId` agree but `startedAt` differs. -/
theorem makeVisitId_deterministic (s₁ s₂ : RunSession) (l₁ l₂ : String)
    (hrun : s₁.runId = s₂.runId) (hloc : l₁ = l₂) :
    (s₁.startedAt = s₂.startedAt → makeVisitId s₁ l₁ = makeVisitId s₂ l₂) ∧
    (s₁.startedAt ≠ s₂.startedAt → makeVisitId s₁ l₁ ≠ makeVisitId s₂ l₂) := by
  constructor
  · intro h
    unfold makeVisitId
    rw [hrun, hloc, h]
  · intro hne heq
    unfold makeVisitId at heq
    rw [hrun, hloc] at heq
    exact hne (intDecStr_injective (string_append_left_cancel heq))

/-- C9 witness: same inputs give the same id; a session started one
millisecond later gives a different id. -/
theorem makeVisitId_deterministic_witness :
    makeVisitId (createRunSession "r" 7) "A" = makeVisitId (createRunSession "r" 7) "A" ∧
    makeVisitId (createRunSession "r" 7) "A" ≠ makeVisitId (createRunSession "r" 8) "A" :=
  ⟨(makeVisitId_deterministic (createRunSession "r" 7) (createRunSession "r" 7) "A" "A"
      rfl rfl).1 rfl,
   (makeVisitId_deterministic (createRunSession "r" 7) (createRunSession "r" 8) "A" "A"
      rfl rfl).2 (by decide)⟩

/-! ## C1: idempotent marking -/

theorem saveVisit_absent {L : Ledger} {v : Visit} (h : ∀ w ∈ L, w.id ≠ v.id) :
    saveVisit L v = L ++ [v] := by
  unfold saveVisit
  rw [if_neg]
  simp only [List.any_eq_true, decide_eq_true_eq, not_exists, not_and]
  exact h

theorem ledger_map_id_of_ne {L : Ledger} {v : Visit} (h : ∀ w ∈ L, w.id ≠ v.id) :
    L.map (fun w => if w.id = v.id then v else w) = L := by
  have := List.map_congr_left (l := L) (f := fun w => if w.id = v.id then v else w)
    (g := id) (fun w hw => by simp [h w hw])
  simpa using this

/-- C1 counterexample (claim as stated): with the empty string supplied as
the second call's visit id — a supplied id that JS treats as falsy — the
stored mapping entry for the location is *not* overwritten. -/
theorem markVisited_counterexample :
    getVisitId
      (markVisited (markVisited (createRunSession "r" 0) "A" (some "v1")) "A" (some ""))
      "A" = some "v1" ∧ ("v1" : String) ≠ "" := by
  constructor
  · rfl
  · decide

/-- C1 (amended): `markVisited(s, id, v1); markVisited(s, id, v2)` leaves
`id` present exactly once in `visitedLocationIds`; recording each mark's
visit under the deterministic visit id leaves the ledger with exactly one
entry for `id`; if the second call supplies a *non-empty* visitId it
overwrites the stored mapping entry for `id`. -/
theorem markVisited_idempotent (s : RunSession) (id : String) (v1 v2 : Option String)
    (L : Ledger) (t1 t2 : Int)
    (hnd : s.visitedLocationIds.Nodup)
    (hL : ∀ w ∈ L, w.locationId ≠ id ∧ w.id ≠ makeVisitId s id) :
    ((markVisited (markVisited s id v1) id v2).visitedLocationIds.count id = 1)
    ∧ (jsTruthy v2 = true →
        getVisitId (markVisited (markVisited s id v1) id v2) id = v2)
    ∧ (((markTwice s L id t1 t2).2.filter (fun w => w.locationId = id)).length = 1) := by
  refine ⟨?_, ?_, ?_⟩
  · show (setAdd (setAdd s.visitedLocationIds id) id).count id = 1
    rw [setAdd_of_contains (setAdd_contains _ _)]
    exact setAdd_count id hnd
  · intro htr
    show mapGet (markVisited (markVisited s id v1) id v2).visitIdsByLocation id = v2
    unfold markVisited
    simp only [htr, if_true]
    rw [mapGet_mapSet_self]
    cases v2 with
    | none => simp [jsTruthy] at htr
    | some x => rfl
  · have hvid2 : makeVisitId (markVisited s id (some (makeVisitId s id))) id =
        makeVisitId s id := rfl
    show ((appMarkVisited (appMarkVisited s L id t1).1 (appMarkVisited s L id t1).2
        id t2).2.filter (fun w => w.locationId = id)).length = 1
    unfold appMarkVisited
    simp only [hvid2]
    rw [saveVisit_absent (fun w hw => (hL w hw).2)]
    unfold saveVisit
    rw [if_pos (by simp)]
    rw [List.map_append, ledger_map_id_of_ne (fun w hw => (hL w hw).2)]
    simp only [List.map_cons, List.map_nil, if_pos rfl]
    rw [List.filter_append]
    have h1 : L.filter (fun w => decide (w.locationId = id)) = [] := by
      rw [List.filter_eq_nil_iff]
      intro w hw
      simpa using (hL w hw).1
    rw [h1]
    simp

/-- C1 witness: a fresh session and empty ledger, marking `"A"` twice with
visit ids `"x"` then `"y"`. -/
theorem markVisited_idempotent_witness :
    ((markVisited (markVisited (createRunSession "r" 0) "A" (some "x")) "A"
        (some "y")).visitedLocationIds.count "A" = 1)
    ∧ (jsTruthy (some "y") = true →
        getVisitId (markVisited (markVisited (createRunSession "r" 0) "A" (some "x"))
          "A" (some "y")) "A" = some "y")
    ∧ (((markTwice (createRunSession "r" 0) [] "A" 4 5).2.filter
        (fun w => w.locationId = "A")).length = 1) := by
  have h := markVisited_idempotent (createRunSession "r" 0) "A" (some "x") (some "y")
    [] 4 5 (by simp [createRunSession]) (by simp)
  exact ⟨h.1, fun _ => h.2.1 (by decide), h.2.2⟩

/-! ## C2: undo reverses a mark -/

theorem makeVisitId_ne_empty (s : RunSession) (l : String) : makeVisitId s l ≠ "" := by
  intro h
  have hd := congrArg String.data h
  unfold makeVisitId at hd
  simp [String.data_append] at hd

/-- C2: for a location not previously visited, mark-visited followed by
mark-unvisited restores `isVisited = false`, removes the visit-id mapping
entry, and deletes exactly the ledger entry the mark created. -/
theorem undo_reverses_mark (s : RunSession) (L : Ledger) (id : String) (t : Int)
    (hvis : isVisited s id = false)
    (hL : ∀ w ∈ L, w.id ≠ makeVisitId s id) :
    isVisited (markThenUnmark s L id t).1 id = false
    ∧ getVisitId (markThenUnmark s L id t).1 id = none
    ∧ (markThenUnmark s L id t).2 = L := by
  have hvid : makeVisitId s id ≠ "" := makeVisitId_ne_empty s id
  have hstored : getVisitId (markVisited s id (some (makeVisitId s id))) id =
      some (makeVisitId s id) := by
    unfold markVisited getVisitId
    simp only [jsTruthy, hvid, decide_True, if_true, ne_eq]
    rw [if_pos (by simp [jsTruthy, hvid])]
    exact mapGet_mapSet_self _ _ _
  refine ⟨?_, ?_, ?_⟩
  · show isVisited (markUnvisited _ _) id = false
    unfold isVisited markUnvisited
    exact setDelete_not_contains _ _
  · show getVisitId (markUnvisited _ _) id = none
    unfold getVisitId markUnvisited
    exact mapGet_mapDelete_self _ _
  · show (appMarkUnvisited (appMarkVisited s L id t).1 (appMarkVisited s L id t).2
        id).2 = L
    unfold appMarkUnvisited
    simp only
    rw [show (appMarkVisited s L id t).1 = markVisited s id (some (makeVisitId s id))
        from rfl]
    rw [hstored]
    simp only [jsTruthy, hvid, decide_True, if_true, ne_eq, Option.getD_some]
    rw [show (appMarkVisited s L id t).2 = saveVisit L
        { id := makeVisitId s id, locationId := id, runId := some s.runId,
          visitedAt := t, visitMethod := "manual" } from rfl]
    rw [saveVisit_absent (by intro w hw; exact hL w hw)]
    unfold deleteVisit
    rw [List.filter_append]
    have h1 : L.filter (fun w => decide (w.id ≠ makeVisitId s id)) = L :=
      List.filter_eq_self.mpr (fun w hw => by simpa using hL w hw)
    rw [h1]
    simp

/-- C2 witness: fresh session, empty ledger, location `"A"`. -/
theorem undo_reverses_mark_witness :
    isVisited (markThenUnmark (createRunSession "r" 0) [] "A" 5).1 "A" = false
    ∧ getVisitId (markThenUnmark (createRunSession "r" 0) [] "A" 5).1 "A" = none
    ∧ (markThenUnmark (createRunSession "r" 0) [] "A" 5).2 = [] :=
  undo_reverses_mark (createRunSession "r" 0) [] "A" 5 rfl (by simp)

/-! ## C10: mapping keys are always a subset of the visited set -/

theorem mem_setAdd {l : List String} {x y : String} (h : y ∈ setAdd l x) :
    y ∈ l ∨ y = x := by
  unfold setAdd at h
  by_cases hc : l.contains x
  · rw [if_pos hc] at h
    exact Or.inl h
  · rw [if_neg hc] at h
    rcases List.mem_append.mp h with h1 | h1
    · exact Or.inl h1
    · simpa using Or.inr (List.mem_singleton.mp h1)

theorem mem_setAdd_of_mem {l : List String} {x y : String} (h : y ∈ l) :
    y ∈ setAdd l x := by
  unfold setAdd
  by_cases hc : l.contains x
  · rwa [if_pos hc]
  · rw [if_neg hc]
    exact List.mem_append_left _ h

theorem self_mem_setAdd (l : List String) (x : String) : x ∈ setAdd l x := by
  have := setAdd_contains l x
  simpa using this

theorem mapKeys_mapSet {m : List (String × String)} {k v x : String}
    (h : x ∈ mapKeys (mapSet m k v)) : x ∈ mapKeys m ∨ x = k := by
  unfold mapSet at h
  by_cases hc : m.any (fun p => p.1 = k)
  · rw [if_pos hc] at h
    unfold mapKeys at h ⊢
    rw [List.map_map] at h
    rcases List.mem_map.mp h with ⟨p, hp, hx⟩
    by_cases hpk : p.1 = k
    · right
      have hkx : k = x := by simpa [Function.comp, hpk] using hx
      exact hkx.symm
    · left
      refine List.mem_map.mpr ⟨p, hp, ?_⟩
      simpa [Function.comp, hpk] using hx
  · rw [if_neg hc] at h
    unfold mapKeys at h ⊢
    rw [List.map_append] at h
    rcases List.mem_append.mp h with h1 | h1
    · exact Or.inl h1
    · right
      simpa using h1

/-- C10 (implicit invariant): in every session reachable from
`createRunSession` by `markVisited`/`markUnvisited` calls, the key set of
`visitIdsByLocation` is a subset of `visitedLocationIds`. -/
theorem session_keys_subset_visited (ops : List SessionOp) (runId : String) (now : Int) :
    ∀ k ∈ mapKeys (runOps (createRunSession runId now) ops).visitIdsByLocation,
      k ∈ (runOps (createRunSession runId now) ops).visitedLocationIds := by
  suffices haux : ∀ (ops : List SessionOp) (s : RunSession),
      (∀ k ∈ mapKeys s.visitIdsByLocation, k ∈ s.visitedLocationIds) →
      ∀ k ∈ mapKeys (runOps s ops).visitIdsByLocation,
        k ∈ (runOps s ops).visitedLocationIds by
    exact haux ops (createRunSession runId now) (by intro k hk; simp [createRunSession,
      mapKeys] at hk)
  intro ops
  induction ops with
  | nil => intro s hs; exact hs
  | cons op rest ih =>
      intro s hs
      refine ih (applyOp s op) ?_
      intro k hk
      cases op with
      | mark l v =>
          show k ∈ setAdd s.visitedLocationIds l
          have hk' : k ∈ mapKeys (if jsTruthy v then
              mapSet s.visitIdsByLocation l (v.getD "") else s.visitIdsByLocation) := hk
          by_cases htr : jsTruthy v
          · rw [if_pos htr] at hk'
            rcases mapKeys_mapSet hk' with h1 | h1
            · exact mem_setAdd_of_mem (hs k h1)
            · rw [h1]
              exact self_mem_setAdd _ _
          · rw [if_neg htr] at hk'
            exact mem_setAdd_of_mem (hs k hk')
      | unmark l =>
          show k ∈ setDelete s.visitedLocationIds l
          have hk' : k ∈ mapKeys (mapDelete s.visitIdsByLocation l) := hk
          unfold mapKeys mapDelete at hk'
          rcases List.mem_map.mp hk' with ⟨p, hp, hx⟩
          have hpm := List.mem_filter.mp hp
          have hkne : k ≠ l := by
            rw [← hx]
            simpa using hpm.2
          have hkv : k ∈ s.visitedLocationIds :=
            hs k (List.mem_map.mpr ⟨p, hpm.1, hx⟩)
          unfold setDelete
          exact List.mem_filter.mpr ⟨hkv, by simpa using hkne⟩

/-- C10 witness: after `markVisited("A", "v")` from a fresh session, the
mapping key `"A"` is in the visited set. -/
theorem session_keys_subset_visited_witness :
    "A" ∈ (runOps (createRunSession "r" 0)
      [SessionOp.mark "A" (some "v")]).visitedLocationIds :=
  session_keys_subset_visited [SessionOp.mark "A" (some "v")] "r" 0 "A" (by decide)

/-! ## C5 / C6: auto check-in gates -/

theorem accThreshold_eq (p : ℚ) : max (if p = 0 then 50 else p) 100 = max p 100 := by
  by_cases h : p = 0
  · rw [h]
    norm_num
  · rw [if_neg h]

/-- C6: with auto check-in enabled and at least one unvisited stop, a fix
whose accuracy radius exceeds `max(proximityMeters, 100)` leaves the
controller state (dwelling id and timer) exactly as it was. -/
theorem imprecise_fix_leaves_dwell (distF : ℚ → ℚ → ℚ → ℚ → ℚ)
    (settings : ACSettings) (locations : List GeoLoc) (visitedIds : List String)
    (fix : Fix) (now : Int) (st : ACState) (a : ℚ)
    (hen : settings.enabled = true)
    (hunv : (locations.filter
      (fun loc => !(visitedIds.contains loc.id))).isEmpty = false)
    (hacc : fix.accuracy = some a)
    (hgt : a > max settings.proximityMeters 100) :
    acUpdate distF settings locations visitedIds fix now st = st := by
  unfold acUpdate
  simp only [hen, Bool.not_true, Bool.false_eq_true, if_false, hunv]
  rcases hlat : fix.latitude with _ | lat
  · rfl
  · rcases hlng : fix.longitude with _ | lng
    · rfl
    · simp only [hacc]
      rw [if_pos]
      simp only [decide_eq_true_eq]
      rw [accThreshold_eq]
      exact hgt

/-- C6 witness: an accuracy of 200 m against the default 50 m proximity. -/
theorem imprecise_fix_leaves_dwell_witness :
    acUpdate (fun _ _ _ _ => 0) { enabled := true, proximityMeters := 50, dwellSeconds := 30 }
      [{ id := "A", name := "A", latitude := 0, longitude := 0 }] []
      { latitude := some 0, longitude := some 0, accuracy := some 200, speed := none } 0
      { dwellingLocationId := some "A", dwellTimer := some { setAtMs := 0, delayMs := 30000 } }
    = { dwellingLocationId := some "A", dwellTimer := some { setAtMs := 0, delayMs := 30000 } } :=
  imprecise_fix_leaves_dwell (fun _ _ _ _ => 0) _ _ _ _ 0 _ 200 rfl (by decide) rfl
    (by norm_num)

/-- C5 counterexample (claim as stated): a fix reporting 10 m/s (36 km/h >
5 km/h) but with a hopeless accuracy radius is rejected by the *accuracy*
gate first, so a pending dwell is *not* cancelled. -/
theorem speeding_fix_counterexample :
    ((10 : ℚ) * (36 / 10) > 5)
    ∧ acUpdate (fun _ _ _ _ => 0)
        { enabled := true, proximityMeters := 50, dwellSeconds := 30 }
        [{ id := "A", name := "A", latitude := 0, longitude := 0 }] []
        { latitude := some 0, longitude := some 0, accuracy := some 1000000,
          speed := some 10 } 0
        { dwellingLocationId := some "A",
          dwellTimer := some { setAtMs := 0, delayMs := 30000 } }
      = { dwellingLocationId := some "A",
          dwellTimer := some { setAtMs := 0, delayMs := 30000 } } := by
  constructor
  · norm_num
  · rfl

/-- C5 (amended): for a fix with coordinates whose accuracy passes the
accuracy gate, reported speed above 5 km/h (`speed * 3.6 > 5`) cancels any
pending dwell and starts none; a subsequent in-range, low-speed, accurate
fix then starts a fresh dwell of the full `dwellSeconds` (timer armed at
the new fix's time) rather than resuming the cancelled one. -/
theorem motion_cancels_dwell (distF : ℚ → ℚ → ℚ → ℚ → ℚ)
    (settings : ACSettings) (locations : List GeoLoc) (visitedIds : List String)
    (fix1 fix2 : Fix) (lat1 lng1 lat2 lng2 v1 : ℚ) (now1 now2 : Int) (st : ACState)
    (g : GeoLoc) (d : ℚ)
    (hen : settings.enabled = true)
    (hunv : (locations.filter
      (fun loc => !(visitedIds.contains loc.id))).isEmpty = false)
    (hlat1 : fix1.latitude = some lat1) (hlng1 : fix1.longitude = some lng1)
    (hacc1 : ∀ a, fix1.accuracy = some a →
      a ≤ max settings.proximityMeters 100)
    (hspd1 : fix1.speed = some v1) (hfast : v1 * (36 / 10) > 5)
    (hlat2 : fix2.latitude = some lat2) (hlng2 : fix2.longitude = some lng2)
    (hacc2 : ∀ a, fix2.accuracy = some a →
      a ≤ max settings.proximityMeters 100)
    (hspd2 : ∀ v, fix2.speed = some v → v * (36 / 10) ≤ 5)
    (hclosest : findClosest distF lat2 lng2
      ((if settings.proximityMeters = 0 then 50 else settings.proximityMeters) / 1000)
      (locations.filter (fun loc => !(visitedIds.contains loc.id))) = some (g, d)) :
    acUpdate distF settings locations visitedIds fix1 now1 st = acCancelAll
    ∧ acUpdate distF settings locations visitedIds fix2 now2
        (acUpdate distF settings locations visitedIds fix1 now1 st)
      = { dwellingLocationId := some g.id,
          dwellTimer := some { setAtMs := now2,
                               delayMs := (if settings.dwellSeconds = 0 then 30
                                 else settings.dwellSeconds) * 1000 } } := by
  have h1 : acUpdate distF settings locations visitedIds fix1 now1 st = acCancelAll := by
    unfold acUpdate
    simp only [hen, Bool.not_true, Bool.false_eq_true, if_false, hunv, hlat1, hlng1]
    rw [if_neg, if_pos]
    · simp only [hspd1, decide_eq_true_eq]
      exact hfast
    · rcases hacc : fix1.accuracy with _ | a
      · simp
      · simp only [decide_eq_true_eq]
        rw [accThreshold_eq]
        exact not_lt.mpr (hacc1 a hacc)
  refine ⟨h1, ?_⟩
  rw [h1]
  unfold acUpdate
  simp only [hen, Bool.not_true, Bool.false_eq_true, if_false, hunv, hlat2, hlng2]
  rw [if_neg, if_neg]
  · rw [hclosest]
    have hne : acCancelAll.dwellingLocationId ≠ some g.id := by
      simp [acCancelAll]
    exact if_neg hne
  · rcases hspd : fix2.speed with _ | v
    · simp
    · simp only [decide_eq_true_eq]
      exact not_lt.mpr (hspd2 v hspd)
  · rcases hacc : fix2.accuracy with _ | a
    · simp
    · simp only [decide_eq_true_eq]
      rw [accThreshold_eq]
      exact not_lt.mpr (hacc2 a hacc)

/-- C5 witness: one stop at the fix position (distance function constantly
0), a 10 m/s fix cancelling the dwell, then a stationary accurate fix
re-arming a full 30 s dwell at the later time. -/
theorem motion_cancels_dwell_witness :
    acUpdate (fun _ _ _ _ => 0)
      { enabled := true, proximityMeters := 50, dwellSeconds := 30 }
      [{ id := "A", name := "A", latitude := 0, longitude := 0 }] []
      { latitude := some 0, longitude := some 0, accuracy := some 10, speed := some 10 }
      100
      { dwellingLocationId := some "A",
        dwellTimer := some { setAtMs := 0, delayMs := 30000 } } = acCancelAll
    ∧ acUpdate (fun _ _ _ _ => 0)
        { enabled := true, proximityMeters := 50, dwellSeconds := 30 }
        [{ id := "A", name := "A", latitude := 0, longitude := 0 }] []
        { latitude := some 0, longitude := some 0, accuracy := some 10, speed := some 0 }
        200
        (acUpdate (fun _ _ _ _ => 0)
          { enabled := true, proximityMeters := 50, dwellSeconds := 30 }
          [{ id := "A", name := "A", latitude := 0, longitude := 0 }] []
          { latitude := some 0, longitude := some 0, accuracy := some 10, speed := some 10 }
          100
          { dwellingLocationId := some "A",
            dwellTimer := some { setAtMs := 0, delayMs := 30000 } })
      = { dwellingLocationId := some "A",
          dwellTimer := some { setAtMs := 200, delayMs := 30000 } } := by
  have h := motion_cancels_dwell (fun _ _ _ _ => 0)
    { enabled := true, proximityMeters := 50, dwellSeconds := 30 }
    [{ id := "A", name := "A", latitude := 0, longitude := 0 }] []
    { latitude := some 0, longitude := some 0, accuracy := some 10, speed := some 10 }
    { latitude := some 0, longitude := some 0, accuracy := some 10, speed := some 0 }
    0 0 0 0 10 100 200
    { dwellingLocationId := some "A",
      dwellTimer := some { setAtMs := 0, delayMs := 30000 } }
    { id := "A", name := "A", latitude := 0, longitude := 0 } 0
    rfl (by decide) rfl rfl
    (by intro a ha; cases ha; norm_num)
    rfl (by norm_num) rfl rfl
    (by intro a ha; cases ha; norm_num)
    (by intro v hv; cases hv; norm_num)
    (by norm_num [findClosest])
  have hd : (if (30 : ℚ) = 0 then (30 : ℚ) else 30) * 1000 = 30000 := by norm_num
  refine ⟨h.1, ?_⟩
  rw [h.2]
  norm_num

/-! ## C3: persistence round-trip -/

theorem foldl_setAdd_of_nodup (l acc : List String) (h : (acc ++ l).Nodup) :
    l.foldl setAdd acc = acc ++ l := by
  induction l generalizing acc with
  | nil => simp
  | cons x t ih =>
      have hx : ¬acc.contains x := by
        intro hc
        exact (List.nodup_append.mp h).2.2 (List.mem_of_elem_eq_true hc)
          (List.mem_cons_self _ _)
      have hstep : setAdd acc x = acc ++ [x] := by
        unfold setAdd
        rw [if_neg hx]
      have h2 : ((acc ++ [x]) ++ t).Nodup := by
        rw [List.append_assoc]
        simpa using h
      calc (x :: t).foldl setAdd acc = t.foldl setAdd (setAdd acc x) := rfl
        _ = t.foldl setAdd (acc ++ [x]) := by rw [hstep]
        _ = (acc ++ [x]) ++ t := ih (acc ++ [x]) h2
        _ = acc ++ x :: t := by simp

theorem setFromArray_of_nodup {l : List String} (h : l.Nodup) : setFromArray l = l := by
  unfold setFromArray
  simpa using foldl_setAdd_of_nodup l [] (by simpa using h)

theorem foldl_mapSet_of_nodup (m acc : List (String × String))
    (h : (mapKeys (acc ++ m)).Nodup) :
    m.foldl (fun a p => mapSet a p.1 p.2) acc = acc ++ m := by
  induction m generalizing acc with
  | nil => simp
  | cons x t ih =>
      have hkeys : (mapKeys acc ++ x.1 :: mapKeys t).Nodup := by
        unfold mapKeys at h ⊢
        simpa using h
      have hx : ¬acc.any (fun p => p.1 = x.1) := by
        simp only [List.any_eq_true, decide_eq_true_eq, not_exists, not_and]
        intro p hp hpk
        exact (List.nodup_append.mp hkeys).2.2 (List.mem_map.mpr ⟨p, hp, hpk⟩)
          (List.mem_cons_self _ _)
      have hstep : mapSet acc x.1 x.2 = acc ++ [x] := by
        unfold mapSet
        rw [if_neg hx]
      have h2 : (mapKeys ((acc ++ [x]) ++ t)).Nodup := by
        rw [List.append_assoc]
        simpa using h
      calc (x :: t).foldl (fun a p => mapSet a p.1 p.2) acc
          = t.foldl (fun a p => mapSet a p.1 p.2) (mapSet acc x.1 x.2) := rfl
        _ = t.foldl (fun a p => mapSet a p.1 p.2) (acc ++ [x]) := by rw [hstep]
        _ = (acc ++ [x]) ++ t := ih (acc ++ [x]) h2
        _ = acc ++ x :: t := by simp

theorem mapFromEntries_of_nodup {m : List (String × String)}
    (h : (mapKeys m).Nodup) : mapFromEntries m = m := by
  unfold mapFromEntries
  simpa using foldl_mapSet_of_nodup m [] (by simpa [mapKeys] using h)

/-- C3 counterexample (claim as stated): a session whose `runId` is the
empty string round-trips to `null` (`sessionFromStorage` treats a falsy
`runId` as "nothing to resume"), not to an equal session. -/
theorem session_roundtrip_counterexample :
    sessionFromStorage (fun _ => 0) 99
      (saveActiveSession (fun _ => "")
        { runId := "", visitedLocationIds := [], visitIdsByLocation := [],
          startedAt := 0 } 0) = none
    ∧ (none : Option RunSession) ≠ some
        { runId := "", visitedLocationIds := [], visitIdsByLocation := [],
          startedAt := 0 } := by
  constructor
  · rfl
  · simp

/-- C3 (amended): for every session with a non-empty `runId`, a
duplicate-free visited list and mapping, and a host `Date` that
round-trips the session's `startedAt` through its ISO string,
`saveActiveSession` followed by `loadActiveSession`/`sessionFromStorage`
reconstructs exactly the original session (same `runId`, visited set,
visit-id mapping and `startedAt`). -/
theorem session_roundtrip (dateToISO : Int → String) (dateParse : String → Int)
    (s : RunSession) (now1 now2 : Int)
    (hrun : s.runId ≠ "")
    (hnd : s.visitedLocationIds.Nodup)
    (hkeys : (mapKeys s.visitIdsByLocation).Nodup)
    (hdate : dateParse (dateToISO s.startedAt) = s.startedAt) :
    sessionFromStorage dateParse now2 (saveActiveSession dateToISO s now1) = some s := by
  unfold sessionFromStorage saveActiveSession
  simp only
  rw [if_neg hrun]
  rw [hdate, setFromArray_of_nodup hnd, mapFromEntries_of_nodup hkeys]

/-- C3 witness: a session with one visited stop and its mapping entry,
with a date codec that round-trips `startedAt = 5`. -/
theorem session_roundtrip_witness :
    sessionFromStorage (fun _ => 5) 99
      (saveActiveSession intDecStr
        { runId := "r", visitedLocationIds := ["A"],
          visitIdsByLocation := [("A", "v")], startedAt := 5 } 7)
      = some { runId := "r", visitedLocationIds := ["A"],
               visitIdsByLocation := [("A", "v")], startedAt := 5 } :=
  session_roundtrip intDecStr (fun _ => 5)
    { runId := "r", visitedLocationIds := ["A"],
      visitIdsByLocation := [("A", "v")], startedAt := 5 } 7 99
    (by decide) (by simp) (by simp [mapKeys]) rfl

/-! ## C7: finishing a run records the session -/

theorem putCompletion_absent {cs : List RunCompletion} {r : RunCompletion}
    (h : ∀ c ∈ cs, c.id ≠ r.id) : putCompletion cs r = cs ++ [r] := by
  unfold putCompletion
  rw [if_neg]
  simp only [List.any_eq_true, decide_eq_true_eq, not_exists, not_and]
  exact h

/-- C7: with a live session and a selected run, `finishRun` appends exactly
one `RunCompletion` whose `visitedCount` is the size of the visited set,
`totalCount` the number of stops of the run, and `durationMinutes =
round((now - startedAt) / 60000)`; afterwards the active-session slot is
empty and the session state is cleared (`NoSession`). -/
theorem finishRun_records_completion (dateToISO : Int → String) (genId : String)
    (st : AppState) (locations : List GeoLoc) (runs : List Run) (now : Int)
    (session : RunSession) (runId : String)
    (hsess : st.runSession = some session)
    (hsel : st.selectedRunId = some runId) (hrid : runId ≠ "")
    (hfresh : ∀ c ∈ st.completions, c.id ≠ genId) :
    (finishRun dateToISO genId st locations runs now).completions
      = st.completions ++
        [{ id := genId,
           runId := runId,
           runName := ((runs.find? (fun r => r.id = runId)).map Run.name).getD runId,
           visitedCount := session.visitedLocationIds.length,
           totalCount := locations.length,
           completedAt := dateToISO now,
           durationMinutes := some (jsRound ((now - session.startedAt : ℚ) / 60000)) }]
    ∧ (finishRun dateToISO genId st locations runs now).activeSlot = none
    ∧ (finishRun dateToISO genId st locations runs now).runSession = none
    ∧ (finishRun dateToISO genId st locations runs now).selectedRunId = none := by
  simp only [finishRun, hsess, hsel, if_neg hrid]
  refine ⟨?_, trivial, trivial, trivial⟩
  exact putCompletion_absent (by intro c hc; exact hfresh c hc)

/-- C7 witness: a two-stop run with one visited stop, finished at
`now = 120000` ms against `startedAt = 0` (2 minutes). -/
theorem finishRun_records_completion_witness :
    (finishRun (fun _ => "iso") "cid"
      { runSession := some { runId := "r",
                             visitedLocationIds := ["A"],
                             visitIdsByLocation := [("A", "v")],
                             startedAt := 0 },
        selectedRunId := some "r",
        ledger := [],
        completions := [],
        activeSlot := none }
      [{ id := "A", name := "A", latitude := 0, longitude := 0 },
       { id := "B", name := "B", latitude := 1, longitude := 1 }]
      [{ id := "r", name := "Run One" }] 120000).completions
      = [{ id := "cid", runId := "r", runName := "Run One", visitedCount := 1,
           totalCount := 2, completedAt := "iso", durationMinutes := some 2 }]
    ∧ (finishRun (fun _ => "iso") "cid"
        { runSession := some { runId := "r",
                               visitedLocationIds := ["A"],
                               visitIdsByLocation := [("A", "v")],
                               startedAt := 0 },
          selectedRunId := some "r",
          ledger := [],
          completions := [],
          activeSlot := none }
        [{ id := "A", name := "A", latitude := 0, longitude := 0 },
         { id := "B", name := "B", latitude := 1, longitude := 1 }]
        [{ id := "r", name := "Run One" }] 120000).activeSlot = none := by
  have h := finishRun_records_completion (fun _ => "iso") "cid"
    { runSession := some { runId := "r",
                           visitedLocationIds := ["A"],
                           visitIdsByLocation := [("A", "v")],
                           startedAt := 0 },
      selectedRunId := some "r",
      ledger := [],
      completions := [],
      activeSlot := none }
    [{ id := "A", name := "A", latitude := 0, longitude := 0 },
     { id := "B", name := "B", latitude := 1, longitude := 1 }]
    [{ id := "r", name := "Run One" }] 120000
    { runId := "r", visitedLocationIds := ["A"],
      visitIdsByLocation := [("A", "v")], startedAt := 0 } "r"
    rfl rfl (by decide) (by simp)
  refine ⟨?_, h.2.1⟩
  rw [h.1]
  norm_num [List.find?, jsRound]

/-! ## C8: the finish "safety net" and the ledger -/

theorem saveVisit_ids_nodup {L : Ledger} (v : Visit) (h : (L.map Visit.id).Nodup) :
    ((saveVisit L v).map Visit.id).Nodup := by
  unfold saveVisit
  by_cases hc : L.any (fun w => w.id = v.id)
  · rw [if_pos hc]
    have hmap : (L.map (fun w => if w.id = v.id then v else w)).map Visit.id
        = L.map Visit.id := by
      rw [List.map_map]
      apply List.map_congr_left
      intro w _
      by_cases hww : w.id = v.id <;> simp [hww]
    rw [hmap]
    exact h
  · rw [if_neg hc, List.map_append]
    have hvnotin : v.id ∉ L.map Visit.id := by
      simp only [List.any_eq_true, decide_eq_true_eq, not_exists, not_and] at hc
      intro hmem
      rcases List.mem_map.mp hmem with ⟨w, hw, hwid⟩
      exact hc w hw hwid
    rw [List.nodup_append]
    refine ⟨h, by simp, ?_⟩
    intro x hx
    simp only [List.map_cons, List.map_nil, List.mem_singleton]
    intro hxe
    exact hvnotin (hxe ▸ hx)

theorem filter_map_replace (L : Ledger) (v : Visit) (p : String → Bool)
    (hp : p v.id = false) :
    (L.map (fun w => if w.id = v.id then v else w)).filter (fun w => p w.id)
      = L.filter (fun w => p w.id) := by
  induction L with
  | nil => rfl
  | cons w t ih =>
      by_cases hw : w.id = v.id
      · simp only [List.map_cons, if_pos hw, List.filter_cons, hp, hw]
        simpa [hp] using ih
      · simp only [List.map_cons, if_neg hw, List.filter_cons]
        by_cases hpw : p w.id <;> simp [hpw, ih]

theorem saveVisit_filter_other (L : Ledger) (v : Visit) (p : String → Bool)
    (hp : p v.id = false) :
    (saveVisit L v).filter (fun w => p w.id) = L.filter (fun w => p w.id) := by
  unfold saveVisit
  by_cases hc : L.any (fun w => w.id = v.id)
  · rw [if_pos hc]
    exact filter_map_replace L v p hp
  · rw [if_neg hc, List.filter_append]
    simp [hp]

theorem filter_map_replace_self (L : Ledger) (v : Visit)
    (h : (L.map Visit.id).Nodup) (hc : L.any (fun w => w.id = v.id) = true) :
    (L.map (fun w => if w.id = v.id then v else w)).filter (fun w => w.id = v.id)
      = [v] := by
  induction L with
  | nil => simp at hc
  | cons w t ih =>
      have hnd : w.id ∉ t.map Visit.id ∧ (t.map Visit.id).Nodup := by
        have h' := h
        rw [List.map_cons, List.nodup_cons] at h'
        exact h'
      by_cases hw : w.id = v.id
      · simp only [List.map_cons, if_pos hw, List.filter_cons]
        rw [if_pos (by simp)]
        have ht : (t.map (fun x => if x.id = v.id then v else x)).filter
            (fun w => w.id = v.id) = [] := by
          rw [List.filter_eq_nil_iff]
          intro y hy
          rcases List.mem_map.mp hy with ⟨x, hx, hxy⟩
          have hxid : x.id ≠ v.id := by
            intro hxe
            have hmem : v.id ∈ t.map Visit.id :=
              hxe ▸ List.mem_map_of_mem Visit.id hx
            exact hnd.1 (by rw [hw]; exact hmem)
          rw [if_neg hxid] at hxy
          simp [← hxy, hxid]
        rw [ht]
      · have hc' : t.any (fun x => x.id = v.id) = true := by
          simpa [List.any_cons, hw] using hc
        simp only [List.map_cons, if_neg hw, List.filter_cons]
        rw [if_neg (by simpa using hw)]
        exact ih hnd.2 hc'

theorem saveVisit_filter_self {L : Ledger} (v : Visit) (h : (L.map Visit.id).Nodup) :
    (saveVisit L v).filter (fun w => w.id = v.id) = [v] := by
  unfold saveVisit
  by_cases hc : L.any (fun w => w.id = v.id)
  · rw [if_pos hc]
    exact filter_map_replace_self L v h hc
  · rw [if_neg hc, List.filter_append]
    have h1 : L.filter (fun w => decide (w.id = v.id)) = [] := by
      rw [List.filter_eq_nil_iff]
      intro w hw
      simp only [List.any_eq_true, decide_eq_true_eq, not_exists, not_and] at hc
      simpa using hc w hw
    rw [h1]
    simp

theorem foldl_saveVisit_spec (ids : List String) (mk : String → Visit) (L : Ledger)
    (hids : (ids.map (fun l => (mk l).id)).Nodup)
    (hnd : (L.map Visit.id).Nodup) :
    (((ids.foldl (fun acc l => saveVisit acc (mk l)) L).map Visit.id).Nodup)
    ∧ (∀ l ∈ ids, (ids.foldl (fun acc l => saveVisit acc (mk l)) L).filter
        (fun w => w.id = (mk l).id) = [mk l])
    ∧ (∀ p : String → Bool, (∀ l ∈ ids, p (mk l).id = false) →
        (ids.foldl (fun acc l => saveVisit acc (mk l)) L).filter (fun w => p w.id)
          = L.filter (fun w => p w.id)) := by
  induction ids generalizing L with
  | nil => exact ⟨hnd, by simp, fun p _ => rfl⟩
  | cons x t ih =>
      have hndc : (mk x).id ∉ t.map (fun l => (mk l).id)
          ∧ (t.map (fun l => (mk l).id)).Nodup := by
        have h' := hids
        rw [List.map_cons, List.nodup_cons] at h'
        exact h'
      have hL1 : ((saveVisit L (mk x)).map Visit.id).Nodup := saveVisit_ids_nodup _ hnd
      obtain ⟨ihnd, ihmem, ihframe⟩ := ih (saveVisit L (mk x)) hndc.2 hL1
      refine ⟨ihnd, ?_, ?_⟩
      · intro l hl
        rcases List.mem_cons.mp hl with hlx | hlt
        · rw [hlx]
          have hstep := ihframe (fun sid => decide (sid = (mk x).id)) ?hothers
          case hothers =>
            intro l' hl'
            simp only [decide_eq_false_iff_not]
            intro heq
            exact hndc.1 (heq ▸ List.mem_map_of_mem (fun y => (mk y).id) hl')
          calc ((x :: t).foldl (fun acc l => saveVisit acc (mk l)) L).filter
                (fun w => w.id = (mk x).id)
              = (t.foldl (fun acc l => saveVisit acc (mk l))
                  (saveVisit L (mk x))).filter (fun w => decide (w.id = (mk x).id)) := rfl
            _ = (saveVisit L (mk x)).filter (fun w => decide (w.id = (mk x).id)) := hstep
            _ = [mk x] := saveVisit_filter_self (mk x) hnd
        · exact ihmem l hlt
      · intro p hp
        calc ((x :: t).foldl (fun acc l => saveVisit acc (mk l)) L).filter
              (fun w => p w.id)
            = (t.foldl (fun acc l => saveVisit acc (mk l))
                (saveVisit L (mk x))).filter (fun w => p w.id) := rfl
          _ = (saveVisit L (mk x)).filter (fun w => p w.id) :=
              ihframe p (fun l hl => hp l (List.mem_cons_of_mem _ hl))
          _ = L.filter (fun w => p w.id) :=
              saveVisit_filter_other L (mk x) p (hp x (List.mem_cons_self _ _))

/-- C8 counterexample (claim as stated): a visited stop that *already has*
a ledger entry (auto method, `visitedAt = 5`) gets that entry overwritten
by `finishRun` with a manual method and the finish-time timestamp — the
existing entry is not left unchanged. -/
theorem finish_overwrites_counterexample :
    (finishRun (fun _ => "iso") "cid"
      { runSession := some { runId := "r",
                             visitedLocationIds := ["A"],
                             visitIdsByLocation := [("A", "v")],
                             startedAt := 0 },
        selectedRunId := some "r",
        ledger := [{ id := "v", locationId := "A", runId := some "r",
                     visitedAt := 5, visitMethod := "auto" }],
        completions := [],
        activeSlot := none }
      [{ id := "A", name := "A", latitude := 0, longitude := 0 }] [] 100).ledger
      = [{ id := "v", locationId := "A", runId := some "r",
           visitedAt := 100, visitMethod := "manual" }]
    ∧ [({ id := "v", locationId := "A", runId := some "r",
          visitedAt := 100, visitMethod := "manual" } : Visit)]
      ≠ [({ id := "v", locationId := "A", runId := some "r",
            visitedAt := 5, visitMethod := "auto" } : Visit)] := by
  constructor
  · rfl
  · simp

/-- C8 (amended): during `finishRun`, a manual ledger entry timestamped at
the finish time is upserted for every visited id under its visit id — so a
visited id lacking an entry gains one, but an existing entry for a visited
id is *overwritten* (its `visitedAt` and `visitMethod` are replaced) —
and entries under any other id are left unchanged. -/
theorem finish_safety_net (dateToISO : Int → String) (genId : String)
    (st : AppState) (locations : List GeoLoc) (runs : List Run) (now : Int)
    (session : RunSession) (runId : String)
    (hsess : st.runSession = some session)
    (hsel : st.selectedRunId = some runId) (hrid : runId ≠ "")
    (hnd : (st.ledger.map Visit.id).Nodup)
    (hvids : (session.visitedLocationIds.map
      (fun l => (finishVisit session runId l now).id)).Nodup) :
    (∀ l ∈ session.visitedLocationIds,
      (finishRun dateToISO genId st locations runs now).ledger.filter
        (fun w => w.id = (finishVisit session runId l now).id)
        = [finishVisit session runId l now])
    ∧ (∀ p : String → Bool,
        (∀ l ∈ session.visitedLocationIds,
          p (finishVisit session runId l now).id = false) →
        (finishRun dateToISO genId st locations runs now).ledger.filter
          (fun w => p w.id)
          = st.ledger.filter (fun w => p w.id)) := by
  have hled : (finishRun dateToISO genId st locations runs now).ledger
      = session.visitedLocationIds.foldl
          (fun L l => saveVisit L (finishVisit session runId l now)) st.ledger := by
    simp only [finishRun, hsess, hsel, if_neg hrid]
  obtain ⟨_, hmem, hframe⟩ := foldl_saveVisit_spec session.visitedLocationIds
    (fun l => finishVisit session runId l now) st.ledger hvids hnd
  rw [hled]
  exact ⟨hmem, hframe⟩

/-- C8 witness: one visited stop with stored visit id `"v"` and an empty
ledger: the finish writes exactly the manual entry for it, and a filter
that matches no visited id sees an unchanged (empty) ledger. -/
theorem finish_safety_net_witness :
    ((finishRun (fun _ => "iso") "cid"
      { runSession := some { runId := "r",
                             visitedLocationIds := ["A"],
                             visitIdsByLocation := [("A", "v")],
                             startedAt := 0 },
        selectedRunId := some "r",
        ledger := [],
        completions := [],
        activeSlot := none }
      [] [] 100).ledger.filter
        (fun w => w.id = (finishVisit
          { runId := "r", visitedLocationIds := ["A"],
            visitIdsByLocation := [("A", "v")], startedAt := 0 } "r" "A" 100).id)
      = [finishVisit
          { runId := "r", visitedLocationIds := ["A"],
            visitIdsByLocation := [("A", "v")], startedAt := 0 } "r" "A" 100])
    ∧ ((finishRun (fun _ => "iso") "cid"
        { runSession := some { runId := "r",
                               visitedLocationIds := ["A"],
                               visitIdsByLocation := [("A", "v")],
                               startedAt := 0 },
          selectedRunId := some "r",
          ledger := [],
          completions := [],
          activeSlot := none }
        [] [] 100).ledger.filter (fun w => (fun _ : String => false) w.id)
      = ([] : Ledger).filter (fun w => (fun _ : String => false) w.id)) := by
  have h := finish_safety_net (fun _ => "iso") "cid"
    { runSession := some { runId := "r",
                           visitedLocationIds := ["A"],
                           visitIdsByLocation := [("A", "v")],
                           startedAt := 0 },
      selectedRunId := some "r",
      ledger := [],
      completions := [],
      activeSlot := none }
    [] [] 100
    { runId := "r", visitedLocationIds := ["A"],
      visitIdsByLocation := [("A", "v")], startedAt := 0 } "r"
    rfl rfl (by decide) (by simp) (by simp)
  exact ⟨h.1 "A" (List.mem_cons_self _ _), h.2 (fun _ => false) (fun _ _ => rfl)⟩

/-! ## C4: cardinal suggestion correctness -/

theorem getCard_setCard_self (r : CardResult) (c : Card) (x : Option (GeoLoc × ℚ)) :
    getCard (setCard r c x) c = x := by
  cases c <;> rfl

theorem getCard_setCard_ne (r : CardResult) {c c' : Card} (x : Option (GeoLoc × ℚ))
    (h : c' ≠ c) : getCard (setCard r c x) c' = getCard r c' := by
  cases c <;> cases c' <;> first | rfl | exact absurd rfl h

theorem getCard_updCard_ne (b d : ℚ) (loc : GeoLoc) (r : CardResult) {c c' : Card}
    (h : c' ≠ c) : getCard (updCard b d loc r c) c' = getCard r c' := by
  unfold updCard
  by_cases hb : bearingInCardinal b c
  · rw [if_pos hb]
    cases hrc : getCard r c with
    | none => exact getCard_setCard_ne r _ h
    | some gc =>
        rcases gc with ⟨g, cd⟩
        by_cases hlt : d < cd
        · simp only [hlt, if_true]
          exact getCard_setCard_ne r _ h
        · simp only [hlt, if_false]
  · rw [if_neg hb]

theorem getCard_updCard_self (b d : ℚ) (loc : GeoLoc) (r : CardResult) (c : Card) :
    getCard (updCard b d loc r c) c
      = (if bearingInCardinal b c then
           match getCard r c with
           | none => some (loc, d)
           | some (g, cd) => if d < cd then some (loc, d) else some (g, cd)
         else getCard r c) := by
  unfold updCard
  by_cases hb : bearingInCardinal b c
  · rw [if_pos hb, if_pos hb]
    cases hrc : getCard r c with
    | none => exact getCard_setCard_self r c _
    | some gc =>
        rcases gc with ⟨g, cd⟩
        by_cases hlt : d < cd
        · simp only [hlt, if_true]
          exact getCard_setCard_self r c _
        · simp only [hlt, if_false]
          exact hrc
  · rw [if_neg hb, if_neg hb]

theorem getCard_processLoc (bearingF distF : ℚ → ℚ → ℚ → ℚ → ℚ) (clat clon : ℚ)
    (r : CardResult) (x : GeoLoc) (c : Card) :
    getCard (processLoc bearingF distF clat clon r x) c
      = (if bearingInCardinal (bearingF clat clon x.latitude x.longitude) c then
           match getCard r c with
           | none => some (x, distF clat clon x.latitude x.longitude)
           | some (g, cd) =>
               if distF clat clon x.latitude x.longitude < cd then
                 some (x, distF clat clon x.latitude x.longitude)
               else some (g, cd)
         else getCard r c) := by
  unfold processLoc
  cases c with
  | N =>
      rw [getCard_updCard_ne _ _ _ _ (by decide), getCard_updCard_ne _ _ _ _ (by decide),
        getCard_updCard_ne _ _ _ _ (by decide)]
      exact getCard_updCard_self _ _ _ _ _
  | E =>
      rw [getCard_updCard_ne _ _ _ _ (by decide), getCard_updCard_ne _ _ _ _ (by decide),
        getCard_updCard_self _ _ _ _ _, getCard_updCard_ne _ _ _ _ (by decide)]
  | S =>
      rw [getCard_updCard_ne _ _ _ _ (by decide), getCard_updCard_self _ _ _ _ _,
        getCard_updCard_ne _ _ _ _ (by decide), getCard_updCard_ne _ _ _ _ (by decide)]
  | W =>
      rw [getCard_updCard_self _ _ _ _ _, getCard_updCard_ne _ _ _ _ (by decide),
        getCard_updCard_ne _ _ _ _ (by decide), getCard_updCard_ne _ _ _ _ (by decide)]

theorem goodResult_nil (bearingF distF : ℚ → ℚ → ℚ → ℚ → ℚ) (clat clon : ℚ) :
    goodResult bearingF distF clat clon []
      { n := none, e := none, s := none, w := none } := by
  intro c
  left
  exact ⟨by cases c <;> rfl, rfl⟩

theorem goodResult_step (bearingF distF : ℚ → ℚ → ℚ → ℚ → ℚ) (clat clon : ℚ)
    (cs : List GeoLoc) (x : GeoLoc) (r : CardResult)
    (h : goodResult bearingF distF clat clon cs r) :
    goodResult bearingF distF clat clon (cs ++ [x])
      (processLoc bearingF distF clat clon r x) := by
  intro c
  have hbuck : (cs ++ [x]).filter (fun loc => bearingInCardinal
      (bearingF clat clon loc.latitude loc.longitude) c)
      = cs.filter (fun loc => bearingInCardinal
          (bearingF clat clon loc.latitude loc.longitude) c)
        ++ (if bearingInCardinal (bearingF clat clon x.latitude x.longitude) c
            then [x] else []) := by
    rw [List.filter_append]
    congr 1
    by_cases hb : bearingInCardinal (bearingF clat clon x.latitude x.longitude) c
      <;> simp [hb]
  rw [getCard_processLoc, hbuck]
  by_cases hb : bearingInCardinal (bearingF clat clon x.latitude x.longitude) c
  · rw [if_pos hb, if_pos hb]
    rcases h c with ⟨hnone, hempty⟩ | ⟨g, hg, hgmem, hgmin⟩
    · right
      refine ⟨x, ?_, ?_, ?_⟩
      · rw [hnone]
      · rw [hempty]
        simp
      · intro l hl
        rw [hempty] at hl
        simp only [List.nil_append, List.mem_singleton] at hl
        rw [hl]
    · right
      rw [hg]
      by_cases hlt : distF clat clon x.latitude x.longitude
          < distF clat clon g.latitude g.longitude
      · refine ⟨x, by simp [hlt], by simp, ?_⟩
        intro l hl
        rcases List.mem_append.mp hl with hl1 | hl1
        · exact le_trans (le_of_lt hlt) (hgmin l hl1)
        · simp only [List.mem_singleton] at hl1
          rw [hl1]
      · refine ⟨g, by simp [hlt], List.mem_append_left _ hgmem, ?_⟩
        intro l hl
        rcases List.mem_append.mp hl with hl1 | hl1
        · exact hgmin l hl1
        · simp only [List.mem_singleton] at hl1
          rw [hl1]
          exact le_of_not_lt hlt
  · rw [if_neg hb, if_neg hb]
    simpa using h c

theorem goodResult_foldl (bearingF distF : ℚ → ℚ → ℚ → ℚ → ℚ) (clat clon : ℚ)
    (cs : List GeoLoc) :
    goodResult bearingF distF clat clon cs
      (cs.foldl (processLoc bearingF distF clat clon)
        { n := none, e := none, s := none, w := none }) := by
  induction cs using List.reverseRecOn with
  | nil => exact goodResult_nil bearingF distF clat clon
  | append_singleton cs x ih =>
      rw [List.foldl_append]
      exact goodResult_step bearingF distF clat clon cs x _ ih

theorem contains_eq_false_iff {l : List String} {x : String} :
    l.contains x = false ↔ x ∉ l := by
  constructor
  · intro h hm
    have ht : l.contains x = true := List.elem_eq_true_of_mem hm
    rw [ht] at h
    cases h
  · intro h
    cases hc : l.contains x
    · rfl
    · exact absurd (List.mem_of_elem_eq_true hc) h

/-- C4: the suggestion function considers only unvisited candidates,
buckets each by the half-open cardinal bearing ranges of the source
(N wrapping at 0°/360°, and 22.5° classified E, not N), returns a
minimum-distance member of each direction's bucket, and returns null
exactly for the directions whose bucket is empty. -/
theorem cardinal_suggestion_correct (bearingF distF : ℚ → ℚ → ℚ → ℚ → ℚ)
    (clat clon : ℚ) (locations : List GeoLoc) (visitedIds : List String) :
    (∀ c g, getNearestByCardinal bearingF distF clat clon locations visitedIds c
        = some g →
      g ∈ locations ∧ visitedIds.contains g.id = false
      ∧ bearingInCardinal (bearingF clat clon g.latitude g.longitude) c = true
      ∧ ∀ l ∈ locations, visitedIds.contains l.id = false →
          bearingInCardinal (bearingF clat clon l.latitude l.longitude) c = true →
          distF clat clon g.latitude g.longitude
            ≤ distF clat clon l.latitude l.longitude)
    ∧ (∀ c, getNearestByCardinal bearingF distF clat clon locations visitedIds c
          = none ↔
        ∀ l ∈ locations, visitedIds.contains l.id = false →
          bearingInCardinal (bearingF clat clon l.latitude l.longitude) c = false)
    ∧ (∀ b : ℚ,
        (bearingInCardinal b Card.N = true ↔ (337.5 ≤ b ∨ b < 22.5))
        ∧ (bearingInCardinal b Card.E = true ↔ (22.5 ≤ b ∧ b < 112.5))
        ∧ (bearingInCardinal b Card.S = true ↔ (112.5 ≤ b ∧ b < 202.5))
        ∧ (bearingInCardinal b Card.W = true ↔ (202.5 ≤ b ∧ b < 337.5)))
    ∧ (bearingInCardinal (22.5 : ℚ) Card.E = true
        ∧ bearingInCardinal (22.5 : ℚ) Card.N = false) := by
  have hgood := goodResult_foldl bearingF distF clat clon
    (locations.filter (fun loc => !(visitedIds.contains loc.id)))
  refine ⟨?_, ?_, ?_, ?_, ?_⟩
  · intro c g hsome
    unfold getNearestByCardinal at hsome
    rcases hgood c with ⟨hnone, _⟩ | ⟨g', hg', hmem, hmin⟩
    · rw [hnone] at hsome
      simp at hsome
    · rw [hg'] at hsome
      simp only [Option.map_some', Option.some.injEq] at hsome
      rw [← hsome]
      have hmem' := List.mem_filter.mp hmem
      have hcand := List.mem_filter.mp hmem'.1
      refine ⟨hcand.1, by simpa using hcand.2, by simpa using hmem'.2, ?_⟩
      intro l hl hlv hlb
      exact hmin l (List.mem_filter.mpr
        ⟨List.mem_filter.mpr ⟨hl, by simpa using contains_eq_false_iff.mp hlv⟩,
         by simp [hlb]⟩)
  · intro c
    unfold getNearestByCardinal
    constructor
    · intro hnone l hl hlv
      by_contra hlb
      have hlb' : bearingInCardinal
          (bearingF clat clon l.latitude l.longitude) c = true := by
        simpa using hlb
      rcases hgood c with ⟨_, hempty⟩ | ⟨g', hg', hmem, _⟩
      · have hin : l ∈ (locations.filter
            (fun loc => !(visitedIds.contains loc.id))).filter
            (fun loc => bearingInCardinal
              (bearingF clat clon loc.latitude loc.longitude) c) :=
          List.mem_filter.mpr
            ⟨List.mem_filter.mpr ⟨hl, by simpa using contains_eq_false_iff.mp hlv⟩,
             by simp [hlb']⟩
        rw [hempty] at hin
        simp at hin
      · rw [hg'] at hnone
        simp at hnone
    · intro hall
      rcases hgood c with ⟨hnone, _⟩ | ⟨g', hg', hmem, _⟩
      · rw [hnone]
        rfl
      · exfalso
        have hmem' := List.mem_filter.mp hmem
        have hcand := List.mem_filter.mp hmem'.1
        have := hall g' hcand.1 (by simpa using hcand.2)
        rw [this] at hmem'
        simpa using hmem'.2
  · intro b
    refine ⟨?_, ?_, ?_, ?_⟩ <;>
      simp [bearingInCardinal, CARDINALS] <;> norm_num
  · norm_num [bearingInCardinal, CARDINALS]
  · norm_num [bearingInCardinal, CARDINALS]

/-- C4 witness: with bearings encoded in latitudes (10°, 95°, 170°, 260°)
the north slot returns the 10° stop, which the theorem certifies as an
unvisited candidate bearing north; and 22.5° is east, not north. -/
theorem cardinal_suggestion_correct_witness :
    (getNearestByCardinal (fun _ _ la _ => la) (fun _ _ _ lo => lo) 0 0
        [{ id := "A", name := "A", latitude := 10, longitude := 1 },
         { id := "B", name := "B", latitude := 95, longitude := 2 },
         { id := "C", name := "C", latitude := 170, longitude := 3 },
         { id := "D", name := "D", latitude := 260, longitude := 4 }] [] Card.N
      = some { id := "A", name := "A", latitude := 10, longitude := 1 })
    ∧ ({ id := "A", name := "A", latitude := 10, longitude := 1 } : GeoLoc)
        ∈ [({ id := "A", name := "A", latitude := 10, longitude := 1 } : GeoLoc),
           { id := "B", name := "B", latitude := 95, longitude := 2 },
           { id := "C", name := "C", latitude := 170, longitude := 3 },
           { id := "D", name := "D", latitude := 260, longitude := 4 }]
    ∧ bearingInCardinal ((10 : ℚ)) Card.N = true
    ∧ bearingInCardinal (22.5 : ℚ) Card.E = true
    ∧ bearingInCardinal (22.5 : ℚ) Card.N = false := by
  have h := cardinal_suggestion_correct (fun _ _ la _ => la) (fun _ _ _ lo => lo) 0 0
    [{ id := "A", name := "A", latitude := 10, longitude := 1 },
     { id := "B", name := "B", latitude := 95, longitude := 2 },
     { id := "C", name := "C", latitude := 170, longitude := 3 },
     { id := "D", name := "D", latitude := 260, longitude := 4 }] []
  have hsome : getNearestByCardinal (fun _ _ la _ => la) (fun _ _ _ lo => lo) 0 0
      [{ id := "A", name := "A", latitude := 10, longitude := 1 },
       { id := "B", name := "B", latitude := 95, longitude := 2 },
       { id := "C", name := "C", latitude := 170, longitude := 3 },
       { id := "D", name := "D", latitude := 260, longitude := 4 }] [] Card.N
      = some { id := "A", name := "A", latitude := 10, longitude := 1 } := by
    norm_num [getNearestByCardinal, processLoc, updCard, getCard, setCard,
      bearingInCardinal, CARDINALS, List.foldl, List.filter]
  obtain ⟨hmem, _, hbear, _⟩ := h.1 Card.N _ hsome
  exact ⟨hsome, hmem, hbear, h.2.2.2.1, h.2.2.2.2⟩

end Gumball
